import Mathlib

/-!
Shallow embedding of `src/decode_frame.cpp` (WebP WIC codec frame adapter).

Machine model:
* C `int` is a 32-bit signed integer; arithmetic that can overflow is
  modelled by `wrap32` (two's-complement wraparound, the concretization of
  the undefined behaviour actually observed on the target).
* C `UINT` values are `Nat`s (callers supply values `< 2^32`); the cast
  `static_cast<UINT>` of an `int` is `uint32`.
* Byte buffers are `List Nat`; a pointer that may be `NULL` is an `Option`.
* Undefined behaviour (division by zero, out-of-bounds access through a
  pointer) makes an operation return `none`.
-/

/-- HRESULT values that appear in `decode_frame.cpp`. -/
inductive HR where
  | S_OK
  | E_INVALIDARG
  | E_FAIL
  | E_OUTOFMEMORY
  | E_NOINTERFACE
  | WINCODEC_ERR_BADIMAGE
  | WINCODEC_ERR_INSUFFICIENTBUFFER
  | WINCODEC_ERR_PALETTEUNAVAILABLE
  | WINCODEC_ERR_UNSUPPORTEDOPERATION
  | WINCODEC_ERR_CODECNOTHUMBNAIL
deriving DecidableEq, Repr

/-- 32-bit two's-complement wraparound of a signed `int` computation. -/
def wrap32 (n : Int) : Int := (n + 2147483648) % 4294967296 - 2147483648

/-- `static_cast<UINT>` of a signed 32-bit value (result as a `Nat < 2^32`). -/
def uint32 (n : Int) : Nat := (n % 4294967296).toNat

/-- `const int kBytesPerPixel = 4;` -/
def kBytesPerPixel : Int := 4

/-- `WICRect` request rectangle: all fields are C `int`s. -/
structure WICRect where
  X : Int
  Y : Int
  Width : Int
  Height : Int
deriving DecidableEq, Repr

/-- `RGBImage`: decoded buffer plus `int` width/height/stride fields. -/
structure RGBImage where
  width : Int
  height : Int
  stride : Int
  rgb : List Nat
deriving DecidableEq, Repr

/-- `memcpy(dst + off, src + sOff, len)` on byte lists (both ranges in
bounds; the callers guard bounds). -/
def memcpyList (dst : List Nat) (off : Nat) (src : List Nat) (sOff : Nat)
    (len : Nat) : List Nat :=
  (List.range dst.length).map fun j =>
    if off ≤ j ∧ j < off + len then src.getD (sOff + (j - off)) 0
    else dst.getD j 0

/-- The row loop of `DecodeFrame::CopyPixels`
(`for (int src_y = rect.Y; src_y < rect.Y + rect.Height; ++src_y)`),
unrolled over its iteration count `rows`.  Each iteration computes the
source pointer `image_->rgb + src_y * src_stride + x_offset` (the
multiplication is 32-bit `int` arithmetic, hence `wrap32`; adding the
offsets to the 64-bit pointer does not wrap further) and performs one
`memcpy` of `len` bytes; an access outside either buffer is undefined
behaviour, modelled as `none`. -/
def copyLoop (rgb : List Nat) (srcStride xOff : Int) (len cbStride : Nat)
    (y : Int) (rows : Nat) (dst : List Nat) (dstOff : Nat) :
    Option (List Nat) :=
  match rows with
  | 0 => some dst
  | n + 1 =>
    if 0 ≤ wrap32 (y * srcStride) + xOff ∧
        (wrap32 (y * srcStride) + xOff).toNat + len ≤ rgb.length ∧
        dstOff + len ≤ dst.length then
      copyLoop rgb srcStride xOff len cbStride (y + 1) n
        (memcpyList dst dstOff rgb (wrap32 (y * srcStride) + xOff).toNat len)
        (dstOff + cbStride)
    else none

/-- `DecodeFrame::CopyPixels(prc, cbStride, cbBufferSize, pbBuffer)`.
`image` is the `image_` member; `pbBuffer` is `none` when the destination
pointer is `NULL`.  Returns `none` on undefined behaviour, otherwise the
HRESULT together with the final destination buffer contents (passed
through unchanged on every error path). -/
def DecodeFrame.CopyPixels (image : RGBImage) (prc : Option WICRect)
    (cbStride cbBufferSize : Nat) (pbBuffer : Option (List Nat)) :
    Option (HR × Option (List Nat)) :=
  match pbBuffer with
  | none => some (HR.E_INVALIDARG, none)
  | some dst =>
    let rect := prc.getD ⟨0, 0, image.width, image.height⟩
    if rect.Width < 0 ∨ rect.Height < 0 ∨ rect.X < 0 ∨ rect.Y < 0 then
      some (HR.E_INVALIDARG, some dst)
    else if wrap32 (rect.X + rect.Width) > image.width ∨
        wrap32 (rect.Y + rect.Height) > image.height then
      some (HR.E_INVALIDARG, some dst)
    else if cbStride / 4 < uint32 rect.Width then
      some (HR.E_INVALIDARG, some dst)
    else if cbStride = 0 then
      none
    else if cbBufferSize / cbStride < uint32 rect.Height then
      some (HR.WINCODEC_ERR_INSUFFICIENTBUFFER, some dst)
    else if rect.Width = 0 ∨ rect.Height = 0 then
      some (HR.S_OK, some dst)
    else
      let x_offset := wrap32 (rect.X * kBytesPerPixel)
      let width := wrap32 (rect.Width * kBytesPerPixel)
      if width < 0 then none
      else
        let rows := (wrap32 (rect.Y + rect.Height) - rect.Y).toNat
        match copyLoop image.rgb image.stride x_offset width.toNat cbStride
            rect.Y rows dst 0 with
        | none => none
        | some out => some (HR.S_OK, some out)

/-- Result of the external `WebPDecodeBGRA` call: the returned buffer
pointer (`none` = `NULL`) and the width/height it wrote. -/
structure DecodeResult where
  rgb : Option (List Nat)
  width : Int
  height : Int
deriving DecidableEq, Repr

/-- Observable outcome of `DecodeFrame::CreateFromVP8Stream`: the returned
HRESULT, the final `*ppOutput` (`none` = left `NULL`), and whether the
decoded pixel buffer was passed to `free` before returning. -/
structure CreateOutcome where
  hr : HR
  output : Option RGBImage
  freedBuffer : Bool
deriving DecidableEq, Repr

/-- `DecodeFrame::CreateFromVP8Stream`.  `allocImage` / `allocFrame` model
the two fallible `new (std::nothrow)` allocations; `d` is the result of the
external `WebPDecodeBGRA` call (made only if the `RGBImage` allocation
succeeded).  `stride` is computed as `width * kBytesPerPixel` in `int`
arithmetic.  On each failure path after a successful decode, the
`std::auto_ptr<RGBImage>` destructor runs `RGBImage::~RGBImage`, which
frees the buffer. -/
def DecodeFrame.CreateFromVP8Stream (allocImage allocFrame : Bool)
    (d : DecodeResult) : CreateOutcome :=
  if !allocImage then ⟨HR.E_OUTOFMEMORY, none, false⟩
  else
    match d.rgb with
    | none => ⟨HR.WINCODEC_ERR_BADIMAGE, none, false⟩
    | some buf =>
      if d.width ≤ 0 ∨ d.height ≤ 0 then ⟨HR.E_FAIL, none, true⟩
      else if !allocFrame then ⟨HR.E_OUTOFMEMORY, none, true⟩
      else
        ⟨HR.S_OK, some ⟨d.width, d.height,
          wrap32 (d.width * kBytesPerPixel), buf⟩, false⟩

/-- Stands for the GUID `IID_IUnknown`; only distinctness of the three
interface identifiers matters to the embedding. -/
def IID_IUnknown : Nat := 0

/-- Stands for the GUID `IID_IWICBitmapFrameDecode`. -/
def IID_IWICBitmapFrameDecode : Nat := 1

/-- Stands for the GUID `IID_IWICBitmapSource`. -/
def IID_IWICBitmapSource : Nat := 2

/-- `DecodeFrame::QueryInterface`.  `ppvNull` models a `NULL` `ppvObject`.
Second component: `none` when nothing was written through `ppvObject`;
`some b` when `*ppvObject` was set, with `b = true` meaning it points at
the object and `b = false` meaning it was left `NULL`. -/
def DecodeFrame.QueryInterface (riid : Nat) (ppvNull : Bool) :
    HR × Option Bool :=
  if ppvNull then (HR.E_INVALIDARG, none)
  else if riid ≠ IID_IUnknown ∧ riid ≠ IID_IWICBitmapFrameDecode ∧
      riid ≠ IID_IWICBitmapSource then
    (HR.E_NOINTERFACE, some false)
  else (HR.S_OK, some true)

/-- `DummyFrame::QueryInterface` (same conventions as
`DecodeFrame.QueryInterface`). -/
def DummyFrame.QueryInterface (riid : Nat) (ppvNull : Bool) :
    HR × Option Bool :=
  if ppvNull then (HR.E_INVALIDARG, none)
  else if riid ≠ IID_IUnknown ∧ riid ≠ IID_IWICBitmapFrameDecode then
    (HR.E_NOINTERFACE, some false)
  else (HR.S_OK, some true)

/-- `DecodeFrame::GetSize`.  The two `Bool`s model `NULL` output pointers;
on success the written `(*puiWidth, *puiHeight)` pair is returned. -/
def DecodeFrame.GetSize (image : RGBImage) (puiWidthNull puiHeightNull : Bool) :
    HR × Option (Nat × Nat) :=
  if puiWidthNull ∨ puiHeightNull then (HR.E_INVALIDARG, none)
  else (HR.S_OK, some (uint32 image.width, uint32 image.height))

/-- `DecodeFrame::GetPixelFormat`.  Returns whether the format GUID was
written (`some ()` = set to `GUID_WICPixelFormat32bppBGRA`). -/
def DecodeFrame.GetPixelFormat (pPixelFormatNull : Bool) : HR × Option Unit :=
  if pPixelFormatNull then (HR.E_INVALIDARG, none)
  else (HR.S_OK, some ())

/-- `DecodeFrame::GetResolution`.  The function dereferences `pDpiX` and
`pDpiY` without any `NULL` check; a `NULL` argument is a write through a
null pointer, i.e. undefined behaviour (`none`).  Otherwise it stores
`96` in both and returns `S_OK`. -/
def DecodeFrame.GetResolution (pDpiXNull pDpiYNull : Bool) :
    Option (HR × Nat × Nat) :=
  if pDpiXNull ∨ pDpiYNull then none
  else some (HR.S_OK, 96, 96)

/-- `DecodeFrame::GetColorContexts`: checks only `pcActualCount` for
`NULL`; on success writes `0` through it. -/
def DecodeFrame.GetColorContexts (pcActualCountNull : Bool) :
    HR × Option Nat :=
  if pcActualCountNull then (HR.E_INVALIDARG, none)
  else (HR.S_OK, some 0)

/-! ### Helper lemmas -/

theorem wrap32_eq_self {n : Int} (h1 : -2147483648 ≤ n) (h2 : n < 2147483648) :
    wrap32 n = n := by
  unfold wrap32; omega

theorem uint32_eq_toNat {n : Int} (h1 : 0 ≤ n) (h2 : n < 4294967296) :
    uint32 n = n.toNat := by
  unfold uint32; omega

theorem memcpyList_length (dst : List Nat) (off : Nat) (src : List Nat)
    (sOff len : Nat) : (memcpyList dst off src sOff len).length = dst.length := by
  simp [memcpyList]

theorem memcpyList_getD (dst : List Nat) (off : Nat) (src : List Nat)
    (sOff len j : Nat) (h : j < dst.length) :
    (memcpyList dst off src sOff len).getD j 0 =
      if off ≤ j ∧ j < off + len then src.getD (sOff + (j - off)) 0
      else dst.getD j 0 := by
  simp [memcpyList, List.getD_eq_getElem?_getD, List.getElem?_map,
    List.getElem?_range h]

/-- Full characterization of `copyLoop` when every access is in bounds:
it succeeds, preserves the destination length, writes row `r` of the
source rectangle at destination offset `off + r * cs`, and leaves every
other destination byte unchanged. -/
theorem copyLoop_spec (rgb : List Nat) (ss xo : Int) (len cs : Nat)
    (y : Int) (rows : Nat) (dst : List Nat) (off : Nat)
    (hss : 0 ≤ ss) (hxo : 0 ≤ xo) (hy : 0 ≤ y)
    (hlencs : len ≤ cs)
    (hxol : xo.toNat + len ≤ ss.toNat)
    (hsrc : (y.toNat + rows) * ss.toNat ≤ rgb.length)
    (hrgb : rgb.length < 2147483648)
    (hdst : off + rows * cs ≤ dst.length) :
    ∃ out, copyLoop rgb ss xo len cs y rows dst off = some out
      ∧ out.length = dst.length
      ∧ (∀ r, r < rows → ∀ i, i < len →
          out.getD (off + r * cs + i) 0 =
            rgb.getD ((y.toNat + r) * ss.toNat + xo.toNat + i) 0)
      ∧ (∀ j, j < dst.length →
          (∀ r, r < rows → ¬(off + r * cs ≤ j ∧ j < off + r * cs + len)) →
          out.getD j 0 = dst.getD j 0) := by
  induction rows generalizing y dst off with
  | zero =>
    refine ⟨dst, rfl, rfl, ?_, ?_⟩
    · intro r hr; omega
    · intro j hj hnone; rfl
  | succ n ih =>
    have hmul : (n + 1) * cs = n * cs + cs := by ring
    have e2 : (y.toNat + 1) * ss.toNat = y.toNat * ss.toNat + ss.toNat := by
      ring
    have e1 : (y.toNat + (n + 1)) * ss.toNat =
        (y.toNat + 1) * ss.toNat + n * ss.toNat := by ring
    have hYS : (y.toNat * ss.toNat : Int) < 2147483648 := by omega
    have hYSnn : (0 : Int) ≤ y * ss := mul_nonneg hy hss
    have hyss : y * ss = (y.toNat * ss.toNat : Int) := by
      rw [Int.toNat_of_nonneg hy, Int.toNat_of_nonneg hss]
    have hwrap : wrap32 (y * ss) = y * ss := by
      apply wrap32_eq_self <;> omega
    have hsrcOff : wrap32 (y * ss) + xo =
        ((y.toNat * ss.toNat + xo.toNat : Nat) : Int) := by
      rw [hwrap, hyss]
      push_cast
      rw [Int.toNat_of_nonneg hxo]
    have hoffN : (wrap32 (y * ss) + xo).toNat =
        y.toNat * ss.toNat + xo.toNat := by
      rw [hsrcOff, Int.toNat_natCast]
    have hguard : 0 ≤ wrap32 (y * ss) + xo ∧
        (wrap32 (y * ss) + xo).toNat + len ≤ rgb.length ∧
        off + len ≤ dst.length := by
      refine ⟨by omega, ?_, by omega⟩
      rw [hoffN]
      omega
    set dst1 := memcpyList dst off rgb (y.toNat * ss.toNat + xo.toNat) len
      with hdst1
    have hlen1 : dst1.length = dst.length := memcpyList_length ..
    have hy1 : (y + 1).toNat = y.toNat + 1 := by omega
    obtain ⟨out, hout, hlen, hA, hB⟩ :=
      ih (y + 1) dst1 (off + cs) (by omega)
        (by rw [hy1, show y.toNat + 1 + n = y.toNat + (n + 1) from by omega]
            exact hsrc)
        (by rw [hlen1]; omega)
    refine ⟨out, ?_, by rw [hlen, hlen1], ?_, ?_⟩
    · simp only [copyLoop]
      rw [if_pos hguard, hoffN, ← hdst1]
      exact hout
    · intro r hr i hi
      match r with
      | 0 =>
        rw [show off + 0 * cs + i = off + i from by ring,
          show (y.toNat + 0) * ss.toNat = y.toNat * ss.toNat from by ring]
        have hj : off + i < dst1.length := by rw [hlen1]; omega
        have huntouched : ∀ r', r' < n →
            ¬(off + cs + r' * cs ≤ off + i ∧
              off + i < off + cs + r' * cs + len) := by
          intro r' hr'; omega
        rw [hB _ hj huntouched, hdst1,
          memcpyList_getD dst off rgb (y.toNat * ss.toNat + xo.toNat) len _
            (by omega),
          if_pos (by omega)]
        congr 1
        omega
      | r' + 1 =>
        rw [show off + (r' + 1) * cs + i = off + cs + r' * cs + i from by
              ring,
          show (y.toNat + (r' + 1)) * ss.toNat =
              ((y + 1).toNat + r') * ss.toNat from by rw [hy1]; ring]
        exact hA r' (by omega) i hi
    · intro j hj hnone
      have huntouched : ∀ r', r' < n →
          ¬(off + cs + r' * cs ≤ j ∧ j < off + cs + r' * cs + len) := by
        intro r' hr'
        have h1 := hnone (r' + 1) (by omega)
        have h2 : (r' + 1) * cs = cs + r' * cs := by ring
        omega
      have h0 := hnone 0 (by omega)
      rw [hB j (by omega) huntouched, hdst1,
        memcpyList_getD dst off rgb (y.toNat * ss.toNat + xo.toNat) len _ hj,
        if_neg (by omega)]

/-- C1: For every `CopyPixels` request that passes all validation steps
with `region.width > 0` and `region.height > 0`, the routine writes, for
each row `r` in `[0, region.height)`, exactly `region.width * 4`
contiguous bytes taken from the source image at byte offset
`(region.y + r) * image.stride + region.x * 4` into the destination at
byte offset `r * dest_stride`, byte-identical to the source
sub-rectangle, and returns success; no other destination byte is
written.  (The loop of the model processes rows in increasing `r`
order, matching the source loop.) -/
theorem copyPixels_valid_region_copies (image : RGBImage) (rect : WICRect)
    (cbStride cbBufferSize : Nat) (dst : List Nat)
    (himgw : 0 < image.width) (himgh : 0 < image.height)
    (hstride : image.stride = image.width * 4)
    (hsb : image.width * 4 * image.height < 2147483648)
    (hlen : image.rgb.length = (image.width * 4 * image.height).toNat)
    (hX : 0 ≤ rect.X) (hY : 0 ≤ rect.Y)
    (hW : 0 < rect.Width) (hH : 0 < rect.Height)
    (hXW : rect.X + rect.Width ≤ image.width)
    (hYH : rect.Y + rect.Height ≤ image.height)
    (hcs : rect.Width.toNat ≤ cbStride / 4)
    (hcs0 : 0 < cbStride)
    (hcap : rect.Height.toNat ≤ cbBufferSize / cbStride)
    (hdstlen : dst.length = cbBufferSize) :
    ∃ out, DecodeFrame.CopyPixels image (some rect) cbStride cbBufferSize
        (some dst) = some (HR.S_OK, some out)
      ∧ out.length = dst.length
      ∧ (∀ r, r < rect.Height.toNat → ∀ i, i < rect.Width.toNat * 4 →
          out.getD (r * cbStride + i) 0 =
            image.rgb.getD
              ((rect.Y.toNat + r) * image.stride.toNat +
                rect.X.toNat * 4 + i) 0)
      ∧ (∀ j, j < dst.length →
          (∀ r, r < rect.Height.toNat →
            ¬(r * cbStride ≤ j ∧ j < r * cbStride + rect.Width.toNat * 4)) →
          out.getD j 0 = dst.getD j 0) := by
  have hw4 : image.width * 4 * 1 ≤ image.width * 4 * image.height :=
    mul_le_mul_of_nonneg_left (by omega) (by omega)
  have hwlt : image.width * 4 < 2147483648 := by omega
  have hh4 : 1 * image.height ≤ image.width * 4 * image.height :=
    mul_le_mul_of_nonneg_right (by omega) (by omega)
  have hhlt : image.height < 2147483648 := by omega
  have wrapXW : wrap32 (rect.X + rect.Width) = rect.X + rect.Width :=
    wrap32_eq_self (by omega) (by omega)
  have wrapYH : wrap32 (rect.Y + rect.Height) = rect.Y + rect.Height :=
    wrap32_eq_self (by omega) (by omega)
  have huintW : uint32 rect.Width = rect.Width.toNat :=
    uint32_eq_toNat (by omega) (by omega)
  have huintH : uint32 rect.Height = rect.Height.toNat :=
    uint32_eq_toNat (by omega) (by omega)
  have wrapX4 : wrap32 (rect.X * 4) = rect.X * 4 :=
    wrap32_eq_self (by omega) (by omega)
  have wrapW4 : wrap32 (rect.Width * 4) = rect.Width * 4 :=
    wrap32_eq_self (by omega) (by omega)
  have hrows : (wrap32 (rect.Y + rect.Height) - rect.Y).toNat =
      rect.Height.toNat := by
    rw [wrapYH]; omega
  have heq : image.height.toNat * image.stride.toNat = image.rgb.length := by
    have h1 : (0 : Int) ≤ image.width * 4 := by omega
    have h2 : (0 : Int) ≤ image.height := by omega
    have h3 : ((image.height.toNat * image.stride.toNat : Nat) : Int) =
        ((image.width * 4 * image.height).toNat : Int) := by
      push_cast
      rw [Int.toNat_of_nonneg h2, Int.toNat_of_nonneg (by omega : (0:Int) ≤ image.stride),
        Int.toNat_of_nonneg (mul_nonneg h1 h2), hstride]
      ring
    rw [hlen]
    exact_mod_cast h3
  obtain ⟨out, hout, hlenout, hA, hB⟩ :=
    copyLoop_spec image.rgb image.stride (rect.X * 4) (rect.Width * 4).toNat
      cbStride rect.Y rect.Height.toNat dst 0
      (by omega) (by omega) hY
      (by omega)
      (by omega)
      (by
        have hYH' : rect.Y.toNat + rect.Height.toNat ≤ image.height.toNat := by
          omega
        calc (rect.Y.toNat + rect.Height.toNat) * image.stride.toNat
            ≤ image.height.toNat * image.stride.toNat :=
              Nat.mul_le_mul_right _ hYH'
          _ = image.rgb.length := heq)
      (by omega)
      (by
        have h1 : rect.Height.toNat * cbStride ≤
            cbBufferSize / cbStride * cbStride :=
          Nat.mul_le_mul_right _ hcap
        have h2 := Nat.div_mul_le_self cbBufferSize cbStride
        omega)
  have hcp : DecodeFrame.CopyPixels image (some rect) cbStride cbBufferSize
      (some dst) = some (HR.S_OK, some out) := by
    simp only [DecodeFrame.CopyPixels, Option.getD_some, kBytesPerPixel]
    rw [if_neg (by omega), wrapXW, wrapYH, if_neg (by omega), huintW,
      if_neg (by omega), if_neg (by omega), huintH, if_neg (by omega),
      if_neg (by omega), wrapX4, wrapW4, if_neg (by omega)]
    rw [show (rect.Y + rect.Height - rect.Y).toNat = rect.Height.toNat from
      by omega]
    rw [hout]
  refine ⟨out, hcp, hlenout, ?_, ?_⟩
  · intro r hr i hi
    have := hA r hr i (by omega)
    rw [show 0 + r * cbStride + i = r * cbStride + i from by omega] at this
    rw [this]
    congr 1
    omega
  · intro j hj hnone
    refine hB j hj ?_
    intro r hr
    have := hnone r hr
    omega

/-- Witness for C1 at a concrete 1×1 image. -/
theorem copyPixels_valid_region_copies_witness :
    (0 : Int) < (10 : Int) ∧
    (∃ out, DecodeFrame.CopyPixels ⟨1, 1, 4, [1, 2, 3, 4]⟩
        (some ⟨0, 0, 1, 1⟩) 4 4 (some [9, 9, 9, 9]) =
          some (HR.S_OK, some out)
      ∧ out.length = 4
      ∧ (∀ r, r < 1 → ∀ i, i < 1 * 4 →
          out.getD (r * 4 + i) 0 =
            [1, 2, 3, 4].getD ((0 + r) * 4 + 0 * 4 + i) 0)
      ∧ (∀ j, j < 4 →
          (∀ r, r < 1 → ¬(r * 4 ≤ j ∧ j < r * 4 + 1 * 4)) →
          out.getD j 0 = [9, 9, 9, 9].getD j 0)) :=
  ⟨by decide,
   copyPixels_valid_region_copies ⟨1, 1, 4, [1, 2, 3, 4]⟩ ⟨0, 0, 1, 1⟩ 4 4
     [9, 9, 9, 9] (by decide) (by decide) (by decide) (by decide) (by decide)
     (by decide) (by decide) (by decide) (by decide) (by decide) (by decide)
     (by decide) (by decide) (by decide) (by decide)⟩

/-- C2: the bounds-check additions in `CopyPixels` are plain 32-bit `int`
additions, not overflow-checked or widened.  At `region = {x = 2^31 - 1,
y = 0, width = 1, height = 1}` against a 10×10 image the mathematical sum
`x + width = 2^31` exceeds `image.width = 10`, yet the wrapped sum is
`-2^31 ≤ 10`, so the check passes and the routine proceeds to an
out-of-bounds source read (undefined behaviour, `none`) instead of
returning `E_INVALIDARG`. -/
theorem copyPixels_bounds_check_wraps :
    (2147483647 : Int) + 1 > (10 : Int) ∧
    DecodeFrame.CopyPixels ⟨10, 10, 40, List.replicate 400 7⟩
      (some ⟨2147483647, 0, 1, 1⟩) 4 4 (some [0, 0, 0, 0]) = none := by
  constructor
  · decide
  · decide

/-- C3: a request with `cbStride = 0` that reaches the
`cbBufferSize / cbStride` comparison (possible exactly when
`rect.Width = 0`, since the stride check then passes) divides by zero —
undefined behaviour (`none`) — instead of returning `E_INVALIDARG`. -/
theorem copyPixels_zero_stride_divides_by_zero :
    DecodeFrame.CopyPixels ⟨10, 10, 40, List.replicate 400 7⟩
      (some ⟨0, 0, 0, 1⟩) 0 0 (some []) = none := by decide

/-- C4 counterexample: an in-bounds empty region (`width = 0`,
`height = 5`) with a destination of stride 4 and capacity 0 is reported
as `WINCODEC_ERR_INSUFFICIENTBUFFER`, not success: the capacity check
runs before the empty-region early-out. -/
theorem copyPixels_empty_region_error_counterexample :
    DecodeFrame.CopyPixels ⟨10, 10, 40, List.replicate 400 7⟩
      (some ⟨0, 0, 0, 5⟩) 4 0 (some []) =
      some (HR.WINCODEC_ERR_INSUFFICIENTBUFFER, some []) := by decide

/-- C4 (amended): for every in-bounds region with `width = 0` or
`height = 0` and every non-null destination whose stride and capacity
also pass the validation checks (`dest_stride / 4 ≥ width`,
`dest_stride ≠ 0`, `dest_capacity / dest_stride ≥ height`), `CopyPixels`
returns success with zero bytes written (destination unchanged). -/
theorem copyPixels_empty_region_success (image : RGBImage) (rect : WICRect)
    (cbStride cbBufferSize : Nat) (dst : List Nat)
    (hwh : rect.Width = 0 ∨ rect.Height = 0)
    (hX : 0 ≤ rect.X) (hY : 0 ≤ rect.Y)
    (hW : 0 ≤ rect.Width) (hH : 0 ≤ rect.Height)
    (hXW : rect.X + rect.Width ≤ image.width)
    (hYH : rect.Y + rect.Height ≤ image.height)
    (hXWlt : rect.X + rect.Width < 2147483648)
    (hYHlt : rect.Y + rect.Height < 2147483648)
    (hcs : rect.Width.toNat ≤ cbStride / 4)
    (hcs0 : 0 < cbStride)
    (hcap : rect.Height.toNat ≤ cbBufferSize / cbStride) :
    DecodeFrame.CopyPixels image (some rect) cbStride cbBufferSize
      (some dst) = some (HR.S_OK, some dst) := by
  simp only [DecodeFrame.CopyPixels, Option.getD_some]
  rw [if_neg (by omega), wrap32_eq_self (by omega) (by omega),
    wrap32_eq_self (by omega) (by omega), if_neg (by omega),
    uint32_eq_toNat (by omega) (by omega), if_neg (by omega),
    if_neg (by omega), uint32_eq_toNat (by omega) (by omega),
    if_neg (by omega), if_pos hwh]

/-- Witness for C4's amended theorem. -/
theorem copyPixels_empty_region_success_witness :
    ((0 : Int) = 0 ∨ (5 : Int) = 0) ∧
    DecodeFrame.CopyPixels ⟨10, 10, 40, List.replicate 400 7⟩
      (some ⟨0, 0, 0, 5⟩) 4 20 (some []) = some (HR.S_OK, some []) :=
  ⟨by decide,
   copyPixels_empty_region_success ⟨10, 10, 40, List.replicate 400 7⟩
     ⟨0, 0, 0, 5⟩ 4 20 [] (by decide) (by decide) (by decide) (by decide)
     (by decide) (by decide) (by decide) (by decide) (by decide) (by decide)
     (by decide) (by decide)⟩

/-- C5: every failing `CopyPixels` call (any returned HRESULT other than
`S_OK`) leaves the destination buffer entirely unchanged — every failure
condition is detected before any row is copied. -/
theorem copyPixels_no_partial_writes_on_failure (image : RGBImage)
    (prc : Option WICRect) (cbStride cbBufferSize : Nat)
    (pbBuffer : Option (List Nat)) (hr : HR) (b : Option (List Nat))
    (h : DecodeFrame.CopyPixels image prc cbStride cbBufferSize pbBuffer =
      some (hr, b))
    (hne : hr ≠ HR.S_OK) : b = pbBuffer := by
  cases pbBuffer with
  | none =>
    simp only [DecodeFrame.CopyPixels, Option.some.injEq,
      Prod.mk.injEq] at h
    exact h.2.symm
  | some dst =>
    simp only [DecodeFrame.CopyPixels] at h
    repeat' split at h
    all_goals simp_all

/-- Witness for C5 at a concrete rejected request (negative `x`). -/
theorem copyPixels_no_partial_writes_on_failure_witness :
    (DecodeFrame.CopyPixels ⟨10, 10, 40, List.replicate 400 7⟩
        (some ⟨-1, 0, 1, 1⟩) 4 4 (some [5, 6, 7, 8]) =
        some (HR.E_INVALIDARG, some [5, 6, 7, 8]) ∧
      HR.E_INVALIDARG ≠ HR.S_OK) ∧
    (some [5, 6, 7, 8] : Option (List Nat)) = some [5, 6, 7, 8] :=
  ⟨⟨by decide, by decide⟩,
   copyPixels_no_partial_writes_on_failure
     ⟨10, 10, 40, List.replicate 400 7⟩ (some ⟨-1, 0, 1, 1⟩) 4 4
     (some [5, 6, 7, 8]) HR.E_INVALIDARG (some [5, 6, 7, 8]) (by decide)
     (by decide)⟩

/-- C6: with the wrapper allocation succeeding (so the decode call runs),
`CreateFromVP8Stream` returns `WINCODEC_ERR_BADIMAGE` exactly when the
external decoder yields no buffer, and when it yields a buffer with
`width ≤ 0` or `height ≤ 0` it returns `E_FAIL` with the buffer freed and
no output — the null-buffer check takes precedence over the dimension
check. -/
theorem createFromVP8Stream_error_classification (allocFrame : Bool)
    (d : DecodeResult) :
    ((DecodeFrame.CreateFromVP8Stream true allocFrame d).hr =
        HR.WINCODEC_ERR_BADIMAGE ↔ d.rgb = none)
    ∧ (d.rgb ≠ none → (d.width ≤ 0 ∨ d.height ≤ 0) →
        DecodeFrame.CreateFromVP8Stream true allocFrame d =
          ⟨HR.E_FAIL, none, true⟩) := by
  cases hrgb : d.rgb with
  | none => simp [DecodeFrame.CreateFromVP8Stream, hrgb]
  | some buf =>
    constructor
    · simp only [DecodeFrame.CreateFromVP8Stream, hrgb, Bool.not_true,
        Bool.false_eq_true, if_false]
      split_ifs <;> simp
    · intro _ hdim
      simp [DecodeFrame.CreateFromVP8Stream, hrgb, hdim]

/-- Witness for C6 at a decoder result with a buffer but `width = 0`. -/
theorem createFromVP8Stream_error_classification_witness :
    ((some ([] : List Nat) ≠ none) ∧ ((0 : Int) ≤ 0 ∨ (5 : Int) ≤ 0)) ∧
    DecodeFrame.CreateFromVP8Stream true true ⟨some [], 0, 5⟩ =
      ⟨HR.E_FAIL, none, true⟩ :=
  ⟨⟨by decide, by decide⟩,
   (createFromVP8Stream_error_classification true ⟨some [], 0, 5⟩).2
     (by decide) (by decide)⟩

/-- C7: on every failure path of `CreateFromVP8Stream` (any HRESULT other
than `S_OK`) the caller's output pointer is left `NULL`, and — whenever
the decode ran and produced a buffer — that buffer is freed before
returning, so no partially-usable decoded state is left behind. -/
theorem createFromVP8Stream_failure_leaves_no_state
    (allocImage allocFrame : Bool) (d : DecodeResult)
    (h : (DecodeFrame.CreateFromVP8Stream allocImage allocFrame d).hr ≠
      HR.S_OK) :
    (DecodeFrame.CreateFromVP8Stream allocImage allocFrame d).output = none
    ∧ (allocImage = true → ∀ b, d.rgb = some b →
        (DecodeFrame.CreateFromVP8Stream allocImage allocFrame d).freedBuffer
          = true) := by
  cases allocImage with
  | false => simp [DecodeFrame.CreateFromVP8Stream]
  | true =>
    cases hrgb : d.rgb with
    | none => simp [DecodeFrame.CreateFromVP8Stream, hrgb]
    | some buf =>
      simp only [DecodeFrame.CreateFromVP8Stream, hrgb, Bool.not_true,
        Bool.false_eq_true, if_false] at h ⊢
      split_ifs at h ⊢ <;> simp_all

/-- Witness for C7 at a decode that reports an invalid width. -/
theorem createFromVP8Stream_failure_leaves_no_state_witness :
    ((DecodeFrame.CreateFromVP8Stream true true ⟨some [1], -1, 5⟩).hr ≠
      HR.S_OK) ∧
    ((DecodeFrame.CreateFromVP8Stream true true ⟨some [1], -1, 5⟩).output =
        none
      ∧ (true = true → ∀ b, (some [1] : Option (List Nat)) = some b →
          (DecodeFrame.CreateFromVP8Stream true true
            ⟨some [1], -1, 5⟩).freedBuffer = true)) :=
  ⟨by decide,
   createFromVP8Stream_failure_leaves_no_state true true ⟨some [1], -1, 5⟩
     (by decide)⟩

/-- C8: among the operations taking a required output pointer, `GetSize`,
`GetPixelFormat`, `GetColorContexts` and `CopyPixels` do return
`E_INVALIDARG` on a `NULL` pointer, but `GetResolution` performs no
`NULL` check at all: it writes through the null pointer (undefined
behaviour, `none`) instead of returning `E_INVALIDARG`. -/
theorem getResolution_null_pointer_not_checked :
    DecodeFrame.GetResolution true true = none ∧
    (∀ p, DecodeFrame.GetResolution true true ≠ some p) ∧
    DecodeFrame.GetSize ⟨10, 10, 40, []⟩ true true = (HR.E_INVALIDARG, none) ∧
    DecodeFrame.GetPixelFormat true = (HR.E_INVALIDARG, none) ∧
    DecodeFrame.GetColorContexts true = (HR.E_INVALIDARG, none) ∧
    DecodeFrame.CopyPixels ⟨10, 10, 40, []⟩ none 4 4 none =
      some (HR.E_INVALIDARG, none) := by
  refine ⟨by decide, ?_, by decide, by decide, by decide, by decide⟩
  intro p
  simp [DecodeFrame.GetResolution]

/-- C9: for a non-null output location, `DecodeFrame::QueryInterface`
succeeds exactly on the identifier set `{IID_IUnknown,
IID_IWICBitmapFrameDecode, IID_IWICBitmapSource}` and answers
`E_NOINTERFACE` with `*ppvObject` left `NULL` on every other
identifier. -/
theorem decodeFrame_queryInterface_supported_set (riid : Nat) :
    DecodeFrame.QueryInterface riid false =
      if riid = IID_IUnknown ∨ riid = IID_IWICBitmapFrameDecode ∨
          riid = IID_IWICBitmapSource then (HR.S_OK, some true)
      else (HR.E_NOINTERFACE, some false) := by
  simp only [DecodeFrame.QueryInterface, Bool.false_eq_true, if_false]
  split_ifs with h1 h2 <;> tauto

/-- C10: `DummyFrame::QueryInterface` supports a strictly smaller
identifier set than `DecodeFrame::QueryInterface`: it succeeds only on
`IID_IUnknown` and `IID_IWICBitmapFrameDecode`, and rejects
`IID_IWICBitmapSource`, which the real frame accepts. -/
theorem dummyFrame_queryInterface_stricter :
    (∀ riid, (DummyFrame.QueryInterface riid false).1 = HR.S_OK ↔
        (riid = IID_IUnknown ∨ riid = IID_IWICBitmapFrameDecode)) ∧
    DummyFrame.QueryInterface IID_IWICBitmapSource false =
      (HR.E_NOINTERFACE, some false) ∧
    DecodeFrame.QueryInterface IID_IWICBitmapSource false =
      (HR.S_OK, some true) := by
  refine ⟨?_, by decide, by decide⟩
  intro riid
  simp only [DummyFrame.QueryInterface, Bool.false_eq_true, if_false]
  split_ifs with h
  · simp_all
  · simp_all
    tauto
